import Mathlib

/-!
Verification development for the mobility-backend relayer.

This file gives a shallow embedding, in Lean, of the relayer's core logic:
the withdrawal attestation state machine (`src/services/withdrawal.service.ts`),
the Bitcoin UTXO/fee engine (`src/utils/bitcoin-wallet.ts`), the withdrawal
payout path (`src/utils/withdrawal.ts`), Bitcoin deposit verification
(`src/utils/bitcoin.ts`), the chain event listener's adaptive poll interval
(`src/services/*event*`), and the two Bitcoin address validators.
Machine numbers are modelled as `Nat`, MongoDB documents as a Lean structure,
the document store as a `List` of records, and fallible operations as
`Except`/`Option` values.  Theorems about these definitions settle the
spec's testable properties.
-/

namespace Mobility

/-- Transaction record status, from the mongoose schema
`status: enum ['pending', 'processing', 'completed', 'failed']`
(`src/models/transaction.model.ts`). -/
inductive TxStatus
  | pending
  | processing
  | completed
  | failed
deriving DecidableEq, Repr

/-- Shallow embedding of the `Transaction` mongoose document
(`src/models/transaction.model.ts`).  `eventId` models `data.eventId`
(the source event identifier stored in the opaque `data` blob and queried
by `recordWithdrawalEvent`); optional schema fields are `Option`s, and the
falsy defaults (`withdrawalAmount` absent, `withdrawalAttestations: 0`)
are modelled by `0`. -/
structure TransactionRecord where
  type : String
  status : TxStatus
  suiAddress : String
  bitcoinAddress : String
  bitcoinTxHash : Option String
  hash : Option String
  withdrawalAmount : Nat
  eventId : String
  withdrawalAttestations : Nat
  withdrawalThresholdReached : Bool
  bitcoinWithdrawalTxHash : Option String
  error : Option String
  processedAt : Option Nat
  collateralCreated : Bool
deriving DecidableEq, Repr

/-- `WITHDRAWAL_ATTESTATION_THRESHOLD = 1` from `src/utils/withdrawal.ts`
("for now we'll set it to 1 since there's only one relayer"). -/
def WITHDRAWAL_ATTESTATION_THRESHOLD : Nat := 1

/-- The state update performed by `attestWithdrawal`
(`src/services/withdrawal.service.ts`, lines 102-127) on the record it
looked up: if the status is not `processing` the record is returned
unchanged; otherwise `withdrawalAttestations` is incremented and, when the
new count reaches `WITHDRAWAL_ATTESTATION_THRESHOLD`,
`withdrawalThresholdReached` is set to `true`. -/
def attestUpdate (t : TransactionRecord) : TransactionRecord :=
  if t.status ≠ TxStatus.processing then
    t
  else
    let newCount := t.withdrawalAttestations + 1
    { t with
      withdrawalAttestations := newCount,
      withdrawalThresholdReached :=
        if WITHDRAWAL_ATTESTATION_THRESHOLD ≤ newCount then true
        else t.withdrawalThresholdReached }

/-- `attestWithdrawal` (`src/services/withdrawal.service.ts`): the record is
looked up by id inside a database session; a missing record or a record of a
different type throws, which we model as `Except.error`.  The found-record
case applies `attestUpdate` atomically and returns the updated state. -/
def attestWithdrawal (t : TransactionRecord) : Except String TransactionRecord :=
  if t.type ≠ "withdrawal" then
    Except.error "not a withdrawal"
  else
    Except.ok (attestUpdate t)

/-- The match used by `recordWithdrawalEvent`'s duplicate check:
`Transaction.findOne({ 'data.eventId': eventId, type: 'withdrawal' })`. -/
def isWithdrawalForEvent (eventId : String) (t : TransactionRecord) : Bool :=
  t.eventId == eventId && t.type == "withdrawal"

/-- The duplicate lookup in `recordWithdrawalEvent`
(`src/services/withdrawal.service.ts`, lines 32-35), over a list modelling
the transaction collection. -/
def findWithdrawalByEvent (store : List TransactionRecord) (eventId : String) :
    Option TransactionRecord :=
  store.find? (isWithdrawalForEvent eventId)

/-- The fresh record built by `recordWithdrawalEvent`
(`src/services/withdrawal.service.ts`, lines 48-65): status `processing`,
zero attestations, threshold flag down, no payout hash yet. -/
def mkWithdrawalRecord (suiAddress bitcoinAddress : String) (amount : Nat)
    (eventId : String) : TransactionRecord :=
  { type := "withdrawal"
    status := TxStatus.processing
    suiAddress := suiAddress
    bitcoinAddress := bitcoinAddress
    bitcoinTxHash := none
    hash := none
    withdrawalAmount := amount
    eventId := eventId
    withdrawalAttestations := 0
    withdrawalThresholdReached := false
    bitcoinWithdrawalTxHash := none
    error := none
    processedAt := none
    collateralCreated := false }

/-- `recordWithdrawalEvent` (`src/services/withdrawal.service.ts`): if a
withdrawal record with this `eventId` already exists, its current state is
returned and the store is untouched; otherwise a fresh record is created,
saved, and one attestation is applied to it (`attestWithdrawal` on the new
record's id, whose net effect on the store is saving the attested record).
The result is the record state returned to the caller together with the
updated store. -/
def recordWithdrawalEvent (store : List TransactionRecord)
    (suiAddress bitcoinAddress : String) (amount : Nat) (eventId : String) :
    TransactionRecord × List TransactionRecord :=
  match findWithdrawalByEvent store eventId with
  | some existingTx => (existingTx, store)
  | none =>
      let tx := mkWithdrawalRecord suiAddress bitcoinAddress amount eventId
      let attested := attestUpdate tx
      (attested, store ++ [attested])

/-- The query filter of the withdrawal payout processor
(`setupWithdrawalListener`, `src/services/withdrawal.service.ts`, lines
170-175): kind withdrawal, status `processing`, threshold reached, and no
payout hash recorded yet. -/
def pendingWithdrawalFilter (t : TransactionRecord) : Bool :=
  t.type == "withdrawal" && t.status == TxStatus.processing &&
    t.withdrawalThresholdReached && t.bitcoinWithdrawalTxHash == none

/-- The per-record body of `processPendingWithdrawals`
(`src/services/withdrawal.service.ts`, lines 180-211), applied to a record
selected by `pendingWithdrawalFilter`.  `payout` models the outcome of
`processWithdrawalToBitcoin` for this record (`some hash` on success,
`none` on failure), and `now` the wall clock used for `processedAt`.
A falsy `bitcoinAddress` (empty string) or `withdrawalAmount` (zero) fails
the record immediately. -/
def processOneWithdrawal (payout : TransactionRecord → Option String)
    (now : Nat) (t : TransactionRecord) : TransactionRecord :=
  if t.bitcoinAddress = "" ∨ t.withdrawalAmount = 0 then
    { t with status := TxStatus.failed,
             error := some "Missing required withdrawal information" }
  else
    match payout t with
    | some bitcoinTxHash =>
        { t with status := TxStatus.completed,
                 bitcoinWithdrawalTxHash := some bitcoinTxHash,
                 processedAt := some now }
    | none =>
        { t with status := TxStatus.failed,
                 error := some "Failed to process Bitcoin withdrawal" }

/-- One sweep of the payout processor over a single stored record: records
matching `pendingWithdrawalFilter` are processed, all others are left
untouched (they are not returned by the `Transaction.find` query). -/
def payoutSweepRecord (payout : TransactionRecord → Option String)
    (now : Nat) (t : TransactionRecord) : TransactionRecord :=
  if pendingWithdrawalFilter t then processOneWithdrawal payout now t else t

/-- One full sweep of `processPendingWithdrawals` over the store. -/
def processPendingWithdrawals (payout : TransactionRecord → Option String)
    (now : Nat) (store : List TransactionRecord) : List TransactionRecord :=
  store.map (payoutSweepRecord payout now)

/-! ### UTXO / fee engine (`src/utils/bitcoin-wallet.ts`) -/

/-- A wallet-local unspent output, as consumed by `sendBitcoinTransaction`
(confirmed outputs with their value in satoshis). -/
structure Utxo where
  txid : String
  vout : Nat
  value : Nat
deriving DecidableEq, Repr

/-- Sum of the values of a list of outputs (`utxos.reduce((sum, utxo) =>
sum + utxo.value, 0)`). -/
def utxoSum (l : List Utxo) : Nat :=
  (l.map Utxo.value).sum

/-- `[...utxos].sort((a, b) => a.value - b.value)`: the available outputs
sorted ascending by value (`src/utils/bitcoin-wallet.ts`, line 202). -/
def sortUtxos (l : List Utxo) : List Utxo :=
  l.mergeSort (fun a b => a.value ≤ b.value)

/-- The linear size model of `sendBitcoinTransaction`
(`src/utils/bitcoin-wallet.ts`, line 212): each input adds 148 bytes, the
2 assumed outputs (destination and change) add 34 bytes each, plus 10
bytes of overhead. -/
def estimatedTxSize (numInputs : Nat) : Nat :=
  numInputs * 148 + 2 * 34 + 10

/-- The accumulation loop of `sendBitcoinTransaction`
(`src/utils/bitcoin-wallet.ts`, lines 205-221): outputs are taken one at a
time from the (sorted) list; after each addition the estimated size and
fee are recomputed and the loop stops as soon as the accumulated value
covers `amount + estimatedFee + 1000` (the 1000-satoshi buffer). -/
def selectLoop (feeRate amount : Nat) (selected : List Utxo)
    (inputAmount : Nat) : List Utxo → List Utxo
  | [] => selected
  | u :: rest =>
      let selected' := selected ++ [u]
      let inputAmount' := inputAmount + u.value
      let estimatedFee := estimatedTxSize selected'.length * feeRate
      if amount + estimatedFee + 1000 ≤ inputAmount' then
        selected'
      else
        selectLoop feeRate amount selected' inputAmount' rest

/-- The full selection step: sort ascending by value, then accumulate. -/
def selectUtxos (feeRate amount : Nat) (utxos : List Utxo) : List Utxo :=
  selectLoop feeRate amount [] 0 (sortUtxos utxos)

/-- The output list of the built transaction
(`src/utils/bitcoin-wallet.ts`, lines 248-260): the destination output is
always added; a change output paying the wallet address is added exactly
when the change amount exceeds the 546-satoshi dust threshold. -/
def txOutputs (walletAddress destinationAddress : String)
    (amount changeAmount : Nat) : List (String × Nat) :=
  (destinationAddress, amount) ::
    (if 546 < changeAmount then [(walletAddress, changeAmount)] else [])

/-- The transaction assembled and broadcast by `sendBitcoinTransaction`:
its selected inputs, its outputs (address, value) and the fee implied by
the final size estimate.  An `Except.ok` value of the send operation
stands for a transaction that was actually broadcast. -/
structure BuiltTx where
  inputs : List Utxo
  outputs : List (String × Nat)
  fee : Nat
deriving DecidableEq, Repr

/-- `sendBitcoinTransaction` (`src/utils/bitcoin-wallet.ts`, lines
165-293) as a pure function of the wallet address, the fetched fee rate,
the fetched confirmed UTXO set, the destination and the amount.  Thrown
errors are modelled as `Except.error`; the success value is the broadcast
transaction.  The fee charged is the final size estimate times the fee
rate, and the change amount is the remainder `inputAmount - amount - fee`
(guarded non-negative by the insufficient-balance check). -/
def sendBitcoinTransaction (walletAddress destinationAddress : String)
    (feeRate : Nat) (utxos : List Utxo) (amount : Nat) :
    Except String BuiltTx :=
  if destinationAddress = "" then
    Except.error "Destination address is required"
  else if amount = 0 then
    Except.error "Amount must be greater than 0"
  else if utxos = [] then
    Except.error "No UTXOs available"
  else
    let selectedUtxos := selectUtxos feeRate amount utxos
    let inputAmount := utxoSum selectedUtxos
    let fee := estimatedTxSize selectedUtxos.length * feeRate
    if inputAmount < amount + fee then
      Except.error "Insufficient balance"
    else
      let changeAmount := inputAmount - amount - fee
      Except.ok
        { inputs := selectedUtxos
          outputs := txOutputs walletAddress destinationAddress amount changeAmount
          fee := fee }

/-! ### Withdrawal payout path (`src/utils/withdrawal.ts`) -/

/-- Character class `[a-km-zA-HJ-NP-Z1-9]` of the base58 address body. -/
def isBase58Char (c : Char) : Bool :=
  (('a' ≤ c && c ≤ 'k') || ('m' ≤ c && c ≤ 'z')) ||
  (('A' ≤ c && c ≤ 'H') || ('J' ≤ c && c ≤ 'N') || ('P' ≤ c && c ≤ 'Z')) ||
  ('1' ≤ c && c ≤ '9')

/-- Character class `[a-z0-9]` of the bech32 pattern's body. -/
def isBech32Char (c : Char) : Bool :=
  ('a' ≤ c && c ≤ 'z') || ('0' ≤ c && c ≤ '9')

/-- Character class `[a-zA-Z0-9]` used by the ingestion-stage validator. -/
def isAlphanumChar (c : Char) : Bool :=
  ('a' ≤ c && c ≤ 'z') || ('A' ≤ c && c ≤ 'Z') || ('0' ≤ c && c ≤ '9')

/-- The P2PKH/P2SH arm `/^[13][a-km-zA-HJ-NP-Z1-9]{25,34}$/` of the
payout-stage validator (`src/utils/withdrawal.ts`, line 197). -/
def matchP2pkhArm (cs : List Char) : Bool :=
  match cs with
  | [] => false
  | c :: rest =>
      (c == '1' || c == '3') && rest.all isBase58Char &&
        decide (25 ≤ rest.length) && decide (rest.length ≤ 34)

/-- The bech32 arm `/^bc1[a-z0-9]{39,59}$/` of the payout-stage validator
(`src/utils/withdrawal.ts`, line 198). -/
def matchBech32Arm (cs : List Char) : Bool :=
  cs.take 3 == ['b', 'c', '1'] && (cs.drop 3).all isBech32Char &&
    decide (39 ≤ (cs.drop 3).length) && decide ((cs.drop 3).length ≤ 59)

/-- `validateBitcoinAddress` of the payout stage
(`src/utils/withdrawal.ts`, lines 192-199): the address matches the P2PKH
pattern or the bech32 pattern. -/
def validateBitcoinAddressPayout (bitcoinAddress : String) : Bool :=
  matchP2pkhArm bitcoinAddress.data || matchBech32Arm bitcoinAddress.data

/-- `validateBitcoinAddress` of the ingestion stage
(`src/services/*event*`, lines 275-290): length must be 26-35, the address
must start with `1`, `3` or `bc1`, and every character must be
alphanumeric. -/
def validateBitcoinAddressIngest (address : String) : Bool :=
  let cs := address.data
  if decide (cs.length < 26) || decide (35 < cs.length) then
    false
  else if !(cs.take 1 == ['1'] || cs.take 1 == ['3'] ||
            cs.take 3 == ['b', 'c', '1']) then
    false
  else
    !cs.isEmpty && cs.all isAlphanumChar

/-- `checkSufficientBitcoinBalance` (`src/utils/withdrawal.ts`, lines
206-220): the wallet balance must be at least
`Math.floor(amount * 1.2)`, modelled as `amount * 12 / 10` over `Nat`. -/
def checkSufficientBitcoinBalance (balance amount : Nat) : Bool :=
  decide (amount * 12 / 10 ≤ balance)

/-- `processWithdrawalToBitcoin` (`src/utils/withdrawal.ts`, lines
228-271) as a pure function: validate the address format, bound the
amount (minimum 10,000, maximum 1,000,000,000 satoshis), run the
pre-flight balance check against the wallet's total UTXO value, and only
then construct and broadcast via `sendBitcoinTransaction`.  Any failure
(including a thrown send error) is caught and returned as `none`; `some`
carries the broadcast transaction. -/
def processWithdrawalToBitcoin (walletAddress bitcoinAddress : String)
    (feeRate : Nat) (utxos : List Utxo) (amount : Nat) : Option BuiltTx :=
  if !validateBitcoinAddressPayout bitcoinAddress then
    none
  else if amount < 10000 then
    none
  else if 1000000000 < amount then
    none
  else if !checkSufficientBitcoinBalance (utxoSum utxos) amount then
    none
  else
    match sendBitcoinTransaction walletAddress bitcoinAddress feeRate utxos amount with
    | Except.ok tx => some tx
    | Except.error _ => none

/-! ### Bitcoin deposit verification (`src/utils/bitcoin.ts`) -/

/-- Modelled from the spec: `MIN_REQUIRED_CONFIRMATIONS` is imported from
`src/utils/constants.ts`, a file not present in the sources; the spec's
configuration surface fixes the minimum Bitcoin confirmations default
at 2. -/
def MIN_REQUIRED_CONFIRMATIONS : Nat := 2

/-- The explorer's view of a transaction's confirmation status
(`response.data.status` in `src/utils/bitcoin.ts`). -/
structure TxStatusInfo where
  confirmed : Bool
  block_height : Nat
deriving DecidableEq, Repr

/-- `verifyBitcoinTransaction` (`src/utils/bitcoin.ts`, lines 10-47).
`fetched` models the two explorer calls: `Except.error` is any thrown
network/explorer failure (caught by the function's `catch`, which returns
`false`), `Except.ok` carries the current chain height and the
transaction's status.  For a confirmed transaction the code computes
`confirmations = currentHeight - block_height + 1` (an `Int`, since the
explorer heights are unconstrained) and succeeds exactly when it is at
least `minRequired`; an unconfirmed transaction fails. -/
def verifyBitcoinTransaction (minRequired : Nat)
    (fetched : Except Unit (Nat × TxStatusInfo)) : Bool :=
  match fetched with
  | Except.error _ => false
  | Except.ok (currentHeight, info) =>
      if info.confirmed then
        let confirmations : Int := (currentHeight : Int) - info.block_height + 1
        if confirmations < minRequired then false else true
      else
        false

/-- The verification step of `processDeposit`
(`src/services/relayer.service.ts`): the freshly created record (status
`processing`) is failed with `'Bitcoin transaction verification failed'`
when verification returns `false`; the second component records whether
the workflow continues. -/
def processDepositVerifyStep (fetched : Except Unit (Nat × TxStatusInfo))
    (t : TransactionRecord) : TransactionRecord × Bool :=
  if verifyBitcoinTransaction MIN_REQUIRED_CONFIRMATIONS fetched then
    (t, true)
  else
    ({ t with status := TxStatus.failed,
              error := some "Bitcoin transaction verification failed" }, false)

/-! ### Chain event listener adaptive interval (`src/services/*event*`) -/

/-- Base poll interval of the continuous event listener: 5000 ms. -/
def baseIntervalMs : Nat := 5000

/-- The closure state of `startListenerLoop`: the current adaptive poll
interval and the consecutive-empty-poll counter. -/
structure ListenerState where
  currentIntervalMs : Nat
  consecutiveEmptyPolls : Nat
deriving DecidableEq, Repr

/-- Initial listener state: base interval, no empty polls yet. -/
def initialListenerState : ListenerState :=
  { currentIntervalMs := baseIntervalMs, consecutiveEmptyPolls := 0 }

/-- The empty-poll branch of `checkForEvents` (`src/services/*event*`,
lines 121-134), exactly as written: increment `consecutiveEmptyPolls`,
then run the `if/else if` chain
`> 10 → min(base*2, 30000)`, `else if > 20 → min(base*4, 30000)`,
`else if > 50 → 30000`. -/
def emptyPollStep (s : ListenerState) : ListenerState :=
  let n := s.consecutiveEmptyPolls + 1
  let interval :=
    if 10 < n then min (baseIntervalMs * 2) 30000
    else if 20 < n then min (baseIntervalMs * 4) 30000
    else if 50 < n then 30000
    else s.currentIntervalMs
  { currentIntervalMs := interval, consecutiveEmptyPolls := n }

/-- The non-empty-poll branch of `checkForEvents`: the empty-poll counter
is reset when events arrive (line 96) and, after successful processing,
the interval is reset to the base interval (line 119). -/
def nonEmptyPollStep (_ : ListenerState) : ListenerState :=
  { currentIntervalMs := baseIntervalMs, consecutiveEmptyPolls := 0 }

/-! ## Helper lemmas -/

theorem attestUpdate_not_processing {t : TransactionRecord}
    (h : ¬ t.status = TxStatus.processing) : attestUpdate t = t := by
  simp [attestUpdate, h]

theorem attestUpdate_processing {t : TransactionRecord}
    (h : t.status = TxStatus.processing) :
    attestUpdate t =
      { t with
        withdrawalAttestations := t.withdrawalAttestations + 1,
        withdrawalThresholdReached :=
          if WITHDRAWAL_ATTESTATION_THRESHOLD ≤ t.withdrawalAttestations + 1
          then true else t.withdrawalThresholdReached } := by
  simp [attestUpdate, h]

theorem attestUpdate_status (t : TransactionRecord) :
    (attestUpdate t).status = t.status := by
  by_cases h : t.status = TxStatus.processing
  · rw [attestUpdate_processing h]
  · rw [attestUpdate_not_processing h]

theorem attestUpdate_iterate (t : TransactionRecord)
    (h : t.status = TxStatus.processing) (n : Nat) :
    ((attestUpdate)^[n] t).status = TxStatus.processing ∧
      ((attestUpdate)^[n] t).withdrawalAttestations =
        t.withdrawalAttestations + n := by
  induction n with
  | zero => exact ⟨h, rfl⟩
  | succ n ih =>
      obtain ⟨hs, hc⟩ := ih
      rw [Function.iterate_succ_apply', attestUpdate_processing hs]
      exact ⟨hs, by simp [hc]; omega⟩

theorem attestUpdate_iterate_threshold (t : TransactionRecord)
    (h : t.status = TxStatus.processing)
    (hf : t.withdrawalThresholdReached = false) (n : Nat) :
    ((attestUpdate)^[n] t).withdrawalThresholdReached
      = decide (WITHDRAWAL_ATTESTATION_THRESHOLD ≤ n) := by
  induction n with
  | zero => simpa [WITHDRAWAL_ATTESTATION_THRESHOLD] using hf
  | succ n ih =>
      have hs := (attestUpdate_iterate t h n).1
      rw [Function.iterate_succ_apply', attestUpdate_processing hs]
      simp [WITHDRAWAL_ATTESTATION_THRESHOLD]

/-! ## Claim theorems -/

/-- Claim C1: for a withdrawal record whose status is `processing`, a
successful `attestWithdrawal` call increments `withdrawalAttestations` by
exactly 1; the count is non-decreasing under any attest call whatever the
record's state; `withdrawalThresholdReached` never reverts from `true`;
and starting from a fresh record the flag is raised exactly at the call
that makes the count first reach `WITHDRAWAL_ATTESTATION_THRESHOLD`
(= 1), staying `true` for every later call. -/
theorem attest_threshold_monotonicity (t : TransactionRecord)
    (hty : t.type = "withdrawal") (hst : t.status = TxStatus.processing) :
    attestWithdrawal t = Except.ok (attestUpdate t) ∧
    (attestUpdate t).withdrawalAttestations = t.withdrawalAttestations + 1 ∧
    (∀ u : TransactionRecord,
      u.withdrawalAttestations ≤ (attestUpdate u).withdrawalAttestations) ∧
    (∀ u : TransactionRecord, u.withdrawalThresholdReached = true →
      (attestUpdate u).withdrawalThresholdReached = true) ∧
    (t.withdrawalThresholdReached = false →
      ∀ n, ((attestUpdate)^[n] t).withdrawalThresholdReached
        = decide (WITHDRAWAL_ATTESTATION_THRESHOLD ≤ n)) := by
  refine ⟨by simp [attestWithdrawal, hty], ?_, ?_, ?_, ?_⟩
  · rw [attestUpdate_processing hst]
  · intro u
    by_cases h : u.status = TxStatus.processing
    · rw [attestUpdate_processing h]; exact Nat.le_succ _
    · rw [attestUpdate_not_processing h]
  · intro u hu
    by_cases h : u.status = TxStatus.processing
    · rw [attestUpdate_processing h]
      simp [hu]
    · rw [attestUpdate_not_processing h]; exact hu
  · intro hf n
    exact attestUpdate_iterate_threshold t hst hf n

theorem attest_threshold_monotonicity_witness :
    (mkWithdrawalRecord "0xabc" "1aaaaaaaaaaaaaaaaaaaaaaaaa" 600000 "evt-1").type
        = "withdrawal" ∧
    (mkWithdrawalRecord "0xabc" "1aaaaaaaaaaaaaaaaaaaaaaaaa" 600000 "evt-1").status
        = TxStatus.processing ∧
    (attestWithdrawal (mkWithdrawalRecord "0xabc" "1aaaaaaaaaaaaaaaaaaaaaaaaa" 600000 "evt-1")
        = Except.ok (attestUpdate (mkWithdrawalRecord "0xabc" "1aaaaaaaaaaaaaaaaaaaaaaaaa" 600000 "evt-1")) ∧
      (attestUpdate (mkWithdrawalRecord "0xabc" "1aaaaaaaaaaaaaaaaaaaaaaaaa" 600000 "evt-1")).withdrawalAttestations
        = (mkWithdrawalRecord "0xabc" "1aaaaaaaaaaaaaaaaaaaaaaaaa" 600000 "evt-1").withdrawalAttestations + 1 ∧
      (∀ u : TransactionRecord,
        u.withdrawalAttestations ≤ (attestUpdate u).withdrawalAttestations) ∧
      (∀ u : TransactionRecord, u.withdrawalThresholdReached = true →
        (attestUpdate u).withdrawalThresholdReached = true) ∧
      ((mkWithdrawalRecord "0xabc" "1aaaaaaaaaaaaaaaaaaaaaaaaa" 600000 "evt-1").withdrawalThresholdReached = false →
        ∀ n, ((attestUpdate)^[n] (mkWithdrawalRecord "0xabc" "1aaaaaaaaaaaaaaaaaaaaaaaaa" 600000 "evt-1")).withdrawalThresholdReached
          = decide (WITHDRAWAL_ATTESTATION_THRESHOLD ≤ n))) :=
  ⟨by decide, by decide,
    attest_threshold_monotonicity _ (by decide) (by decide)⟩

/-- Claim C3: `attestWithdrawal` on a record whose status is not
`processing` (in particular the terminal statuses `completed` and
`failed`) changes nothing: the attest update is the identity on the whole
record (no attestation increment, no threshold change, no payout-hash
change), the wrapped call returns the current state, and the payout
processor's query filter never selects such a record, so the payout sweep
leaves it untouched as well — terminal states never revert. -/
theorem attest_terminal_frame (t : TransactionRecord)
    (hst : ¬ t.status = TxStatus.processing) :
    attestUpdate t = t ∧
    (t.type = "withdrawal" → attestWithdrawal t = Except.ok t) ∧
    pendingWithdrawalFilter t = false ∧
    (∀ payout : TransactionRecord → Option String, ∀ now : Nat,
      payoutSweepRecord payout now t = t) ∧
    (∀ payout : TransactionRecord → Option String, ∀ now : Nat,
      ∀ store : List TransactionRecord,
        t ∈ store → t ∈ processPendingWithdrawals payout now store) := by
  have hframe : attestUpdate t = t := attestUpdate_not_processing hst
  have hfilter : pendingWithdrawalFilter t = false := by
    simp [pendingWithdrawalFilter]
    intro _ h
    exact absurd (by simpa using h) hst
  refine ⟨hframe, ?_, hfilter, ?_, ?_⟩
  · intro hty
    simp [attestWithdrawal, hty, hframe]
  · intro payout now
    simp [payoutSweepRecord, hfilter]
  · intro payout now store hmem
    have : payoutSweepRecord payout now t = t := by
      simp [payoutSweepRecord, hfilter]
    exact this ▸ List.mem_map_of_mem (payoutSweepRecord payout now) hmem

theorem attest_terminal_frame_witness :
    ¬ ({ mkWithdrawalRecord "0xabc" "1aaaaaaaaaaaaaaaaaaaaaaaaa" 600000 "evt-2" with
          status := TxStatus.completed } : TransactionRecord).status = TxStatus.processing ∧
    (attestUpdate { mkWithdrawalRecord "0xabc" "1aaaaaaaaaaaaaaaaaaaaaaaaa" 600000 "evt-2" with
          status := TxStatus.completed }
        = { mkWithdrawalRecord "0xabc" "1aaaaaaaaaaaaaaaaaaaaaaaaa" 600000 "evt-2" with
          status := TxStatus.completed } ∧
      (({ mkWithdrawalRecord "0xabc" "1aaaaaaaaaaaaaaaaaaaaaaaaa" 600000 "evt-2" with
          status := TxStatus.completed } : TransactionRecord).type = "withdrawal" →
        attestWithdrawal { mkWithdrawalRecord "0xabc" "1aaaaaaaaaaaaaaaaaaaaaaaaa" 600000 "evt-2" with
          status := TxStatus.completed }
          = Except.ok { mkWithdrawalRecord "0xabc" "1aaaaaaaaaaaaaaaaaaaaaaaaa" 600000 "evt-2" with
          status := TxStatus.completed }) ∧
      pendingWithdrawalFilter { mkWithdrawalRecord "0xabc" "1aaaaaaaaaaaaaaaaaaaaaaaaa" 600000 "evt-2" with
          status := TxStatus.completed } = false ∧
      (∀ payout : TransactionRecord → Option String, ∀ now : Nat,
        payoutSweepRecord payout now { mkWithdrawalRecord "0xabc" "1aaaaaaaaaaaaaaaaaaaaaaaaa" 600000 "evt-2" with
          status := TxStatus.completed }
          = { mkWithdrawalRecord "0xabc" "1aaaaaaaaaaaaaaaaaaaaaaaaa" 600000 "evt-2" with
          status := TxStatus.completed }) ∧
      (∀ payout : TransactionRecord → Option String, ∀ now : Nat,
        ∀ store : List TransactionRecord,
          ({ mkWithdrawalRecord "0xabc" "1aaaaaaaaaaaaaaaaaaaaaaaaa" 600000 "evt-2" with
              status := TxStatus.completed } : TransactionRecord) ∈ store →
          ({ mkWithdrawalRecord "0xabc" "1aaaaaaaaaaaaaaaaaaaaaaaaa" 600000 "evt-2" with
              status := TxStatus.completed } : TransactionRecord)
            ∈ processPendingWithdrawals payout now store)) :=
  ⟨by decide, attest_terminal_frame _ (by decide)⟩

/-- Claim C2: `recordWithdrawalEvent` is idempotent in the source event
id.  Delivering an event id that is not yet in the store creates exactly
one withdrawal record for it and applies the single-relayer attestation
(count 1, threshold reached under the default threshold 1); delivering
the same event id again — even with a different payload — returns that
record's current state unchanged, performs no creation and no further
attestation increment, and leaves the store untouched. -/
theorem recordWithdrawalEvent_idempotent
    (store : List TransactionRecord) (a b : String) (amt : Nat)
    (a2 b2 : String) (amt2 : Nat) (e : String)
    (hfresh : findWithdrawalByEvent store e = none) :
    recordWithdrawalEvent (recordWithdrawalEvent store a b amt e).2 a2 b2 amt2 e
      = ((recordWithdrawalEvent store a b amt e).1,
         (recordWithdrawalEvent store a b amt e).2) ∧
    (recordWithdrawalEvent store a b amt e).1.withdrawalAttestations = 1 ∧
    (recordWithdrawalEvent store a b amt e).1.withdrawalThresholdReached = true ∧
    ((recordWithdrawalEvent store a b amt e).2.countP (isWithdrawalForEvent e)) = 1 := by
  have hattested :
      attestUpdate (mkWithdrawalRecord a b amt e)
        = { mkWithdrawalRecord a b amt e with
            withdrawalAttestations := 1, withdrawalThresholdReached := true } := by
    rw [attestUpdate_processing rfl]
    simp [mkWithdrawalRecord, WITHDRAWAL_ATTESTATION_THRESHOLD]
  have h1 : recordWithdrawalEvent store a b amt e
      = (attestUpdate (mkWithdrawalRecord a b amt e),
         store ++ [attestUpdate (mkWithdrawalRecord a b amt e)]) := by
    unfold recordWithdrawalEvent
    rw [hfresh]
  have hmatch : isWithdrawalForEvent e (attestUpdate (mkWithdrawalRecord a b amt e)) = true := by
    rw [hattested]
    simp [isWithdrawalForEvent, mkWithdrawalRecord]
  have hfind2 : findWithdrawalByEvent
      (store ++ [attestUpdate (mkWithdrawalRecord a b amt e)]) e
      = some (attestUpdate (mkWithdrawalRecord a b amt e)) := by
    unfold findWithdrawalByEvent at hfresh ⊢
    rw [List.find?_append, hfresh]
    simp [List.find?, hmatch]
  have hzero : store.countP (isWithdrawalForEvent e) = 0 := by
    refine List.countP_eq_zero.mpr ?_
    exact List.find?_eq_none.mp hfresh
  refine ⟨?_, ?_, ?_, ?_⟩
  · rw [h1]
    unfold recordWithdrawalEvent
    rw [hfind2]
  · rw [h1, hattested]
  · rw [h1, hattested]
  · rw [h1]
    rw [List.countP_append, hzero]
    simp [List.countP, List.countP.go, hmatch]

theorem recordWithdrawalEvent_idempotent_witness :
    findWithdrawalByEvent [] "evt-42" = none ∧
    (recordWithdrawalEvent (recordWithdrawalEvent [] "0xabc" "1aaaaaaaaaaaaaaaaaaaaaaaaa" 600000 "evt-42").2
        "0xabc" "1aaaaaaaaaaaaaaaaaaaaaaaaa" 600000 "evt-42"
      = ((recordWithdrawalEvent [] "0xabc" "1aaaaaaaaaaaaaaaaaaaaaaaaa" 600000 "evt-42").1,
         (recordWithdrawalEvent [] "0xabc" "1aaaaaaaaaaaaaaaaaaaaaaaaa" 600000 "evt-42").2) ∧
    (recordWithdrawalEvent [] "0xabc" "1aaaaaaaaaaaaaaaaaaaaaaaaa" 600000 "evt-42").1.withdrawalAttestations = 1 ∧
    (recordWithdrawalEvent [] "0xabc" "1aaaaaaaaaaaaaaaaaaaaaaaaa" 600000 "evt-42").1.withdrawalThresholdReached = true ∧
    ((recordWithdrawalEvent [] "0xabc" "1aaaaaaaaaaaaaaaaaaaaaaaaa" 600000 "evt-42").2.countP
        (isWithdrawalForEvent "evt-42")) = 1) :=
  ⟨rfl, recordWithdrawalEvent_idempotent [] "0xabc" "1aaaaaaaaaaaaaaaaaaaaaaaaa" 600000
      "0xabc" "1aaaaaaaaaaaaaaaaaaaaaaaaa" 600000 "evt-42" rfl⟩

theorem sortUtxos_perm (l : List Utxo) : (sortUtxos l).Perm l :=
  List.mergeSort_perm l _

theorem sortUtxos_pairwise (l : List Utxo) :
    (sortUtxos l).Pairwise (fun u v => u.value ≤ v.value) := by
  have htrans : ∀ a b c : Utxo, decide (a.value ≤ b.value) = true →
      decide (b.value ≤ c.value) = true → decide (a.value ≤ c.value) = true :=
    fun a b c h1 h2 => by
      simpa using Nat.le_trans (by simpa using h1) (by simpa using h2)
  have htotal : ∀ a b : Utxo,
      (decide (a.value ≤ b.value) || decide (b.value ≤ a.value)) = true :=
    fun a b => by simpa using Nat.le_total a.value b.value
  have h := List.sorted_mergeSort htrans htotal l
  exact h.imp (fun hd => of_decide_eq_true hd)

theorem selectLoop_prefix (feeRate amount : Nat) :
    ∀ (rest selected : List Utxo) (inputAmount : Nat),
    ∃ taken rest2,
      selectLoop feeRate amount selected inputAmount rest = selected ++ taken ∧
      rest = taken ++ rest2 := by
  intro rest
  induction rest with
  | nil =>
      intro selected inputAmount
      exact ⟨[], [], by simp [selectLoop], rfl⟩
  | cons u rest ih =>
      intro selected inputAmount
      simp only [selectLoop]
      split
      · exact ⟨[u], rest, rfl, rfl⟩
      · obtain ⟨taken, rest2, h1, h2⟩ := ih (selected ++ [u]) (inputAmount + u.value)
        exact ⟨u :: taken, rest2, by simpa using h1, by simp [h2]⟩

theorem selectLoop_sufficient (feeRate amount : Nat) :
    ∀ (rest selected : List Utxo) (inputAmount : Nat),
    inputAmount = utxoSum selected →
    amount + estimatedTxSize (selected.length + rest.length) * feeRate + 1000
        ≤ inputAmount + utxoSum rest →
    amount + estimatedTxSize
          (selectLoop feeRate amount selected inputAmount rest).length * feeRate + 1000
        ≤ utxoSum (selectLoop feeRate amount selected inputAmount rest) := by
  intro rest
  induction rest with
  | nil =>
      intro selected inputAmount hinv h
      simp only [selectLoop]
      simpa [utxoSum, hinv] using h
  | cons u rest ih =>
      intro selected inputAmount hinv h
      simp only [selectLoop]
      split
      next hc =>
        have hsum : utxoSum (selected ++ [u]) = inputAmount + u.value := by
          simp [utxoSum, hinv]
        rw [hsum]
        exact hc
      next hc =>
        apply ih (selected ++ [u]) (inputAmount + u.value)
        · simp [utxoSum, hinv]
        · have hlen : (selected ++ [u]).length + rest.length
              = selected.length + (u :: rest).length := by simp; omega
          have hval : inputAmount + u.value + utxoSum rest
              = inputAmount + utxoSum (u :: rest) := by simp [utxoSum]; omega
          rw [hlen, hval]
          exact h

theorem selectLoop_minimal (feeRate amount : Nat) :
    ∀ (rest selected : List Utxo) (inputAmount : Nat),
    inputAmount = utxoSum selected →
    (selected ≠ [] →
      utxoSum selected < amount + estimatedTxSize selected.length * feeRate + 1000) →
    (2 ≤ selected.length →
      utxoSum selected.dropLast
        < amount + estimatedTxSize (selected.length - 1) * feeRate + 1000) →
    2 ≤ (selectLoop feeRate amount selected inputAmount rest).length →
    utxoSum (selectLoop feeRate amount selected inputAmount rest).dropLast
      < amount + estimatedTxSize
          ((selectLoop feeRate amount selected inputAmount rest).length - 1) * feeRate + 1000 := by
  intro rest
  induction rest with
  | nil =>
      intro selected inputAmount hinv h1 h2
      simp only [selectLoop]
      exact h2
  | cons u rest ih =>
      intro selected inputAmount hinv h1 h2
      simp only [selectLoop]
      split
      next hc =>
        intro hlen
        have hdl : (selected ++ [u]).dropLast = selected := by simp
        have hl1 : (selected ++ [u]).length - 1 = selected.length := by simp
        rw [hdl, hl1]
        apply h1
        intro hnil
        rw [hnil] at hlen
        simp at hlen
      next hc =>
        apply ih (selected ++ [u]) (inputAmount + u.value)
        · simp [utxoSum, hinv]
        · intro _
          have hlt := Nat.lt_of_not_le hc
          have hsum : utxoSum (selected ++ [u]) = inputAmount + u.value := by
            simp [utxoSum, hinv]
          rw [hsum]
          exact hlt
        · intro hlen2
          have hdl : (selected ++ [u]).dropLast = selected := by simp
          have hl1 : (selected ++ [u]).length - 1 = selected.length := by simp
          rw [hdl, hl1]
          apply h1
          intro hnil
          rw [hnil] at hlen2
          simp at hlen2

/-- Claim C4: the send operation's coin selection sorts the available
outputs ascending by value and accumulates them one at a time,
recomputing after each addition the estimated size
(148 bytes per input + 2 × 34 output bytes + 10 overhead bytes) and the
estimated fee (size × feeRate), stopping as soon as the accumulated value
reaches `amount + fee + 1000` (the safety buffer).  Whenever the
available outputs can cover that bound even at the full-set size
estimate, the selected subset — a prefix of the ascending-sorted list —
satisfies the bound, and dropping the most recently added output (when at
least one other remains) would violate the bound at the reduced size
estimate. -/
theorem utxo_selection_correct (feeRate amount : Nat) (utxos : List Utxo)
    (hsuff : amount + estimatedTxSize utxos.length * feeRate + 1000 ≤ utxoSum utxos) :
    (∃ rest, sortUtxos utxos = selectUtxos feeRate amount utxos ++ rest) ∧
    (sortUtxos utxos).Pairwise (fun u v => u.value ≤ v.value) ∧
    (sortUtxos utxos).Perm utxos ∧
    amount + estimatedTxSize (selectUtxos feeRate amount utxos).length * feeRate + 1000
        ≤ utxoSum (selectUtxos feeRate amount utxos) ∧
    (2 ≤ (selectUtxos feeRate amount utxos).length →
      utxoSum (selectUtxos feeRate amount utxos).dropLast
        < amount + estimatedTxSize
            ((selectUtxos feeRate amount utxos).length - 1) * feeRate + 1000) := by
  have hperm := sortUtxos_perm utxos
  have hlen : (sortUtxos utxos).length = utxos.length := hperm.length_eq
  have hsum : utxoSum (sortUtxos utxos) = utxoSum utxos := by
    unfold utxoSum
    exact (hperm.map Utxo.value).sum_eq
  refine ⟨?_, sortUtxos_pairwise utxos, hperm, ?_, ?_⟩
  · obtain ⟨taken, rest2, h1, h2⟩ :=
      selectLoop_prefix feeRate amount (sortUtxos utxos) [] 0
    refine ⟨rest2, ?_⟩
    rw [h2]
    unfold selectUtxos
    rw [h1]
    simp
  · apply selectLoop_sufficient feeRate amount (sortUtxos utxos) [] 0 rfl
    simpa [hlen, hsum] using hsuff
  · intro h2
    exact selectLoop_minimal feeRate amount (sortUtxos utxos) [] 0 rfl
      (fun h => absurd rfl h) (fun h => absurd h (by decide)) h2

theorem utxo_selection_correct_witness :
    10000 + estimatedTxSize ([⟨"a", 0, 5000⟩, ⟨"b", 1, 200000⟩] : List Utxo).length * 1 + 1000
        ≤ utxoSum [⟨"a", 0, 5000⟩, ⟨"b", 1, 200000⟩] ∧
    ((∃ rest, sortUtxos [⟨"a", 0, 5000⟩, ⟨"b", 1, 200000⟩]
        = selectUtxos 1 10000 [⟨"a", 0, 5000⟩, ⟨"b", 1, 200000⟩] ++ rest) ∧
    (sortUtxos [⟨"a", 0, 5000⟩, ⟨"b", 1, 200000⟩]).Pairwise (fun u v => u.value ≤ v.value) ∧
    (sortUtxos [⟨"a", 0, 5000⟩, ⟨"b", 1, 200000⟩]).Perm [⟨"a", 0, 5000⟩, ⟨"b", 1, 200000⟩] ∧
    10000 + estimatedTxSize (selectUtxos 1 10000 [⟨"a", 0, 5000⟩, ⟨"b", 1, 200000⟩]).length * 1 + 1000
        ≤ utxoSum (selectUtxos 1 10000 [⟨"a", 0, 5000⟩, ⟨"b", 1, 200000⟩]) ∧
    (2 ≤ (selectUtxos 1 10000 [⟨"a", 0, 5000⟩, ⟨"b", 1, 200000⟩]).length →
      utxoSum (selectUtxos 1 10000 [⟨"a", 0, 5000⟩, ⟨"b", 1, 200000⟩]).dropLast
        < 10000 + estimatedTxSize
            ((selectUtxos 1 10000 [⟨"a", 0, 5000⟩, ⟨"b", 1, 200000⟩]).length - 1) * 1 + 1000)) :=
  ⟨by decide, utxo_selection_correct 1 10000 [⟨"a", 0, 5000⟩, ⟨"b", 1, 200000⟩] (by decide)⟩

deriving instance DecidableEq for Except

unseal List.merge List.mergeSort in
/-- Claim C4, counterexample: with fee rate 0, payout amount 10000 and a single 10500-satoshi
output, the accumulation loop exhausts the outputs without ever reaching
`amount + estimatedFee + 1000 = 11000`, so the selected subset violates
the claimed bound — yet the send operation still succeeds, because the
final balance check only requires `amount + fee` without the buffer.
The universally quantified bound of the claim therefore fails; it holds
only when the available outputs can cover the buffered bound. -/
theorem utxo_selection_bound_counterexample :
    ¬ (10000 + estimatedTxSize (selectUtxos 0 10000 [⟨"a", 0, 10500⟩]).length * 0 + 1000
        ≤ utxoSum (selectUtxos 0 10000 [⟨"a", 0, 10500⟩])) ∧
    selectUtxos 0 10000 [⟨"a", 0, 10500⟩] = [⟨"a", 0, 10500⟩] ∧
    sendBitcoinTransaction "w" "d" 0 [⟨"a", 0, 10500⟩] 10000
      = Except.ok ⟨[⟨"a", 0, 10500⟩], [("d", 10000)], 0⟩ :=
  ⟨by decide, by decide, by decide⟩

theorem send_ok_spec (w d : String) (fr : Nat) (us : List Utxo) (amt : Nat)
    (tx : BuiltTx) (hok : sendBitcoinTransaction w d fr us amt = Except.ok tx) :
    tx.inputs = selectUtxos fr amt us ∧
    tx.fee = estimatedTxSize tx.inputs.length * fr ∧
    amt + tx.fee ≤ utxoSum tx.inputs ∧
    tx.outputs = txOutputs w d amt (utxoSum tx.inputs - amt - tx.fee) := by
  simp only [sendBitcoinTransaction] at hok
  split at hok
  · simp at hok
  split at hok
  · simp at hok
  split at hok
  · simp at hok
  split at hok
  next hbal => simp at hok
  next hbal =>
    injection hok with h
    subst h
    exact ⟨rfl, rfl, Nat.le_of_not_lt hbal, rfl⟩

/-- Claim C5: in the transaction-construction step of the send operation,
with `R` the remainder of the accumulated input value after the amount
and the fee, a change output paying the wallet address is added iff
`R > 546`; at `R = 546` exactly (and any smaller remainder) no change
output is created and the remainder is absorbed into the fee, so the
built transaction has exactly two outputs when `R > 546` and exactly one
output otherwise. -/
theorem change_or_absorb_boundary (w d : String) (fr : Nat) (us : List Utxo)
    (amt : Nat) (tx : BuiltTx)
    (hok : sendBitcoinTransaction w d fr us amt = Except.ok tx) :
    amt + tx.fee ≤ utxoSum tx.inputs ∧
    (546 < utxoSum tx.inputs - amt - tx.fee →
      tx.outputs = [(d, amt), (w, utxoSum tx.inputs - amt - tx.fee)]) ∧
    (utxoSum tx.inputs - amt - tx.fee ≤ 546 → tx.outputs = [(d, amt)]) ∧
    (tx.outputs.length = 2 ↔ 546 < utxoSum tx.inputs - amt - tx.fee) := by
  obtain ⟨hin, hfee, hcov, hout⟩ := send_ok_spec w d fr us amt tx hok
  refine ⟨hcov, ?_, ?_, ?_⟩
  · intro h
    rw [hout]
    simp [txOutputs, h]
  · intro h
    rw [hout]
    simp [txOutputs, Nat.not_lt.mpr h]
  · rw [hout]
    by_cases h : 546 < utxoSum tx.inputs - amt - tx.fee
    · simp [txOutputs, h]
    · simp [txOutputs, h]

unseal List.merge List.mergeSort in
theorem change_or_absorb_boundary_witness :
    (sendBitcoinTransaction "w" "d" 0 [⟨"a", 0, 11547⟩] 10000
        = Except.ok ⟨[⟨"a", 0, 11547⟩], [("d", 10000), ("w", 1547)], 0⟩ ∧
      (10000 + (0 : Nat) ≤ utxoSum [⟨"a", 0, 11547⟩] ∧
        (546 < utxoSum [⟨"a", 0, 11547⟩] - 10000 - 0 →
          ([("d", 10000), ("w", 1547)] : List (String × Nat))
            = [("d", 10000), ("w", utxoSum [⟨"a", 0, 11547⟩] - 10000 - 0)]) ∧
        (utxoSum [⟨"a", 0, 11547⟩] - 10000 - 0 ≤ 546 →
          ([("d", 10000), ("w", 1547)] : List (String × Nat)) = [("d", 10000)]) ∧
        (([("d", 10000), ("w", 1547)] : List (String × Nat)).length = 2
          ↔ 546 < utxoSum [⟨"a", 0, 11547⟩] - 10000 - 0))) ∧
    (sendBitcoinTransaction "w" "d" 0 [⟨"a", 0, 10546⟩] 10000
        = Except.ok ⟨[⟨"a", 0, 10546⟩], [("d", 10000)], 0⟩ ∧
      (10000 + (0 : Nat) ≤ utxoSum [⟨"a", 0, 10546⟩] ∧
        (546 < utxoSum [⟨"a", 0, 10546⟩] - 10000 - 0 →
          ([("d", 10000)] : List (String × Nat))
            = [("d", 10000), ("w", utxoSum [⟨"a", 0, 10546⟩] - 10000 - 0)]) ∧
        (utxoSum [⟨"a", 0, 10546⟩] - 10000 - 0 ≤ 546 →
          ([("d", 10000)] : List (String × Nat)) = [("d", 10000)]) ∧
        (([("d", 10000)] : List (String × Nat)).length = 2
          ↔ 546 < utxoSum [⟨"a", 0, 10546⟩] - 10000 - 0))) :=
  ⟨⟨by decide, change_or_absorb_boundary "w" "d" 0 [⟨"a", 0, 11547⟩] 10000
      ⟨[⟨"a", 0, 11547⟩], [("d", 10000), ("w", 1547)], 0⟩ (by decide)⟩,
   ⟨by decide, change_or_absorb_boundary "w" "d" 0 [⟨"a", 0, 10546⟩] 10000
      ⟨[⟨"a", 0, 10546⟩], [("d", 10000)], 0⟩ (by decide)⟩⟩

theorem processWithdrawalToBitcoin_insufficient (w a : String) (fr : Nat)
    (us : List Utxo) (amt : Nat)
    (hbal : checkSufficientBitcoinBalance (utxoSum us) amt = false) :
    processWithdrawalToBitcoin w a fr us amt = none := by
  unfold processWithdrawalToBitcoin
  split
  · rfl
  split
  · rfl
  split
  · rfl
  simp [hbal]

/-- Claim C6: when the wallet's confirmed UTXOs total 500,000 satoshis
and a withdrawal requests 600,000 satoshis, the payout path returns no
transaction (the pre-flight balance check `balance ≥ floor(1.2 × amount)`
fails before any construction or broadcast) and the payout processor
marks the record `failed` with an error; and in general a failed
pre-flight check yields no broadcast, while any transaction the send
operation does broadcast fully covers `amount + fee` — no partial
send. -/
theorem insufficient_balance_payout (w addr : String) (fr now : Nat)
    (us : List Utxo) (amt : Nat) (t : TransactionRecord)
    (hbal : checkSufficientBitcoinBalance (utxoSum us) amt = false)
    (haddr : ¬ t.bitcoinAddress = "") (hamt : ¬ t.withdrawalAmount = 0) :
    processWithdrawalToBitcoin w addr fr us amt = none ∧
    (∀ w2 a2 : String, ∀ fr2 : Nat, processWithdrawalToBitcoin w2 a2 fr2
        [⟨"t1", 0, 300000⟩, ⟨"t2", 1, 200000⟩] 600000 = none) ∧
    processOneWithdrawal (fun _ => none) now t
      = { t with status := TxStatus.failed,
                 error := some "Failed to process Bitcoin withdrawal" } ∧
    (∀ w2 d2 : String, ∀ fr2 : Nat, ∀ us2 : List Utxo, ∀ amt2 : Nat, ∀ tx : BuiltTx,
      sendBitcoinTransaction w2 d2 fr2 us2 amt2 = Except.ok tx →
        amt2 + tx.fee ≤ utxoSum tx.inputs) := by
  refine ⟨processWithdrawalToBitcoin_insufficient w addr fr us amt hbal, ?_, ?_, ?_⟩
  · intro w2 a2 fr2
    exact processWithdrawalToBitcoin_insufficient w2 a2 fr2 _ _ (by decide)
  · simp [processOneWithdrawal, haddr, hamt]
  · intro w2 d2 fr2 us2 amt2 tx hok
    exact (send_ok_spec w2 d2 fr2 us2 amt2 tx hok).2.2.1

theorem insufficient_balance_payout_witness :
    checkSufficientBitcoinBalance
        (utxoSum [⟨"t1", 0, 300000⟩, ⟨"t2", 1, 200000⟩]) 600000 = false ∧
    ¬ (mkWithdrawalRecord "0xabc" "1aaaaaaaaaaaaaaaaaaaaaaaaa" 600000 "evt-6").bitcoinAddress = "" ∧
    ¬ (mkWithdrawalRecord "0xabc" "1aaaaaaaaaaaaaaaaaaaaaaaaa" 600000 "evt-6").withdrawalAmount = 0 ∧
    (processWithdrawalToBitcoin "w" "1aaaaaaaaaaaaaaaaaaaaaaaaa" 1
        [⟨"t1", 0, 300000⟩, ⟨"t2", 1, 200000⟩] 600000 = none ∧
      (∀ w2 a2 : String, ∀ fr2 : Nat, processWithdrawalToBitcoin w2 a2 fr2
          [⟨"t1", 0, 300000⟩, ⟨"t2", 1, 200000⟩] 600000 = none) ∧
      processOneWithdrawal (fun _ => none) 0
          (mkWithdrawalRecord "0xabc" "1aaaaaaaaaaaaaaaaaaaaaaaaa" 600000 "evt-6")
        = { mkWithdrawalRecord "0xabc" "1aaaaaaaaaaaaaaaaaaaaaaaaa" 600000 "evt-6" with
            status := TxStatus.failed,
            error := some "Failed to process Bitcoin withdrawal" } ∧
      (∀ w2 d2 : String, ∀ fr2 : Nat, ∀ us2 : List Utxo, ∀ amt2 : Nat, ∀ tx : BuiltTx,
        sendBitcoinTransaction w2 d2 fr2 us2 amt2 = Except.ok tx →
          amt2 + tx.fee ≤ utxoSum tx.inputs)) :=
  ⟨by decide, by decide, by decide,
    insufficient_balance_payout "w" "1aaaaaaaaaaaaaaaaaaaaaaaaa" 1 0
      [⟨"t1", 0, 300000⟩, ⟨"t2", 1, 200000⟩] 600000
      (mkWithdrawalRecord "0xabc" "1aaaaaaaaaaaaaaaaaaaaaaaaa" 600000 "evt-6")
      (by decide) (by decide) (by decide)⟩

/-- Claim C7: Bitcoin deposit verification computes
`confirmations = currentHeight − txBlockHeight + 1` for a confirmed
transaction and succeeds exactly when the confirmations reach the
configured minimum `MIN_REQUIRED_CONFIRMATIONS` (default 2, modelled from
the spec since `src/utils/constants.ts` is not among the sources): at
minimum − 1 confirmations verification fails, at exactly the minimum it
passes, and an unconfirmed transaction always fails. -/
theorem confirmation_gating (currentHeight blockHeight : Nat) :
    MIN_REQUIRED_CONFIRMATIONS = 2 ∧
    (verifyBitcoinTransaction MIN_REQUIRED_CONFIRMATIONS
        (Except.ok (currentHeight, ⟨true, blockHeight⟩)) = true
      ↔ (MIN_REQUIRED_CONFIRMATIONS : Int)
          ≤ (currentHeight : Int) - blockHeight + 1) ∧
    ((currentHeight : Int) - blockHeight + 1
        = (MIN_REQUIRED_CONFIRMATIONS : Int) - 1 →
      verifyBitcoinTransaction MIN_REQUIRED_CONFIRMATIONS
        (Except.ok (currentHeight, ⟨true, blockHeight⟩)) = false) ∧
    ((currentHeight : Int) - blockHeight + 1 = (MIN_REQUIRED_CONFIRMATIONS : Int) →
      verifyBitcoinTransaction MIN_REQUIRED_CONFIRMATIONS
        (Except.ok (currentHeight, ⟨true, blockHeight⟩)) = true) ∧
    verifyBitcoinTransaction MIN_REQUIRED_CONFIRMATIONS
        (Except.ok (currentHeight, ⟨false, blockHeight⟩)) = false := by
  have hiff : verifyBitcoinTransaction MIN_REQUIRED_CONFIRMATIONS
      (Except.ok (currentHeight, ⟨true, blockHeight⟩)) = true
      ↔ (MIN_REQUIRED_CONFIRMATIONS : Int) ≤ (currentHeight : Int) - blockHeight + 1 := by
    by_cases h : ((currentHeight : Int) - blockHeight + 1
        < (MIN_REQUIRED_CONFIRMATIONS : Int))
    · simp [verifyBitcoinTransaction, h]
    · simp [verifyBitcoinTransaction, h]
      omega
  refine ⟨rfl, hiff, ?_, ?_, ?_⟩
  · intro h
    rcases hb : verifyBitcoinTransaction MIN_REQUIRED_CONFIRMATIONS
        (Except.ok (currentHeight, ⟨true, blockHeight⟩)) with _ | _
    · rfl
    · have := hiff.mp hb
      rw [h] at this
      norm_num [MIN_REQUIRED_CONFIRMATIONS] at this
  · intro h
    exact hiff.mpr (by rw [h])
  · simp [verifyBitcoinTransaction]

theorem confirmation_gating_witness :
    verifyBitcoinTransaction MIN_REQUIRED_CONFIRMATIONS
        (Except.ok (10, ⟨true, 10⟩)) = false ∧
    verifyBitcoinTransaction MIN_REQUIRED_CONFIRMATIONS
        (Except.ok (10, ⟨true, 9⟩)) = true :=
  ⟨(confirmation_gating 10 10).2.2.1 (by decide),
   (confirmation_gating 10 9).2.2.2.1 (by decide)⟩

/-- Claim C9: `verifyBitcoinTransaction` never raises — it is a total
Boolean function in which every thrown explorer/network failure (the
`Except.error` input, absorbed by the source's `catch`) yields `false`,
so a transient infrastructure failure is indistinguishable from a genuine
verification failure (an unconfirmed transaction), and `processDeposit`
reacts to it by marking the fresh deposit record terminally `failed`
with `'Bitcoin transaction verification failed'`. -/
theorem verify_never_raises (minRequired : Nat) (t : TransactionRecord) :
    verifyBitcoinTransaction minRequired (Except.error ()) = false ∧
    (∀ currentHeight blockHeight : Nat,
      verifyBitcoinTransaction minRequired (Except.error ())
        = verifyBitcoinTransaction minRequired
            (Except.ok (currentHeight, ⟨false, blockHeight⟩))) ∧
    processDepositVerifyStep (Except.error ()) t
      = ({ t with status := TxStatus.failed,
                  error := some "Bitcoin transaction verification failed" },
         false) := by
  refine ⟨rfl, ?_, ?_⟩
  · intro currentHeight blockHeight
    simp [verifyBitcoinTransaction]
  · simp [processDepositVerifyStep, verifyBitcoinTransaction]

/-- Claim C8 (code bug): the adaptive-interval logic of `checkForEvents`
is an `if/else if` chain whose first branch `consecutiveEmptyPolls > 10`
shadows the later `> 20` and `> 50` branches, so the poll interval is
stuck at `min(base × 2, 30000) = 10000` ms for every run of more than
10 consecutive empty polls and never reaches the 30-second cap announced
in the code's own comments ("Max poll interval: 30 seconds"); the reset
to the 5-second base interval on a non-empty poll does hold. -/
theorem listener_interval_never_reaches_cap :
    ((emptyPollStep)^[51] initialListenerState).currentIntervalMs = 10000 ∧
    (∀ n : Nat,
      ((emptyPollStep)^[n] initialListenerState).currentIntervalMs ≤ 10000) ∧
    (∀ n : Nat,
      ((emptyPollStep)^[n] initialListenerState).currentIntervalMs ≠ 30000) ∧
    (∀ s : ListenerState, nonEmptyPollStep s = initialListenerState) := by
  have hstep : ∀ s : ListenerState, s.currentIntervalMs ≤ 10000 →
      (emptyPollStep s).currentIntervalMs ≤ 10000 := by
    intro s hs
    simp only [emptyPollStep, baseIntervalMs]
    split
    · norm_num
    split
    · omega
    split
    · omega
    · exact hs
  have hall : ∀ n : Nat,
      ((emptyPollStep)^[n] initialListenerState).currentIntervalMs ≤ 10000 := by
    intro n
    induction n with
    | zero => norm_num [initialListenerState, baseIntervalMs]
    | succ n ih =>
        rw [Function.iterate_succ_apply']
        exact hstep _ ih
  refine ⟨by decide, hall, ?_, fun s => rfl⟩
  intro n h30
  have := hall n
  omega

/-- Claim C10: the ingestion-stage address validator rejects every string
longer than 35 characters or shorter than 26, while the payout-stage
validator's bech32 arm accepts exactly `bc1`-prefixed strings of total
length 42 to 62; hence every address matching the payout validator's
bech32 pattern is rejected by the ingestion-stage validator — no bech32
withdrawal address that the payout engine would accept can ever pass
event validation. -/
theorem address_validator_mismatch (s : String)
    (hbech : matchBech32Arm s.data = true) :
    validateBitcoinAddressPayout s = true ∧
    42 ≤ s.length ∧ s.length ≤ 62 ∧
    validateBitcoinAddressIngest s = false ∧
    (∀ u : String, 35 < u.length → validateBitcoinAddressIngest u = false) ∧
    (∀ u : String, u.length < 26 → validateBitcoinAddressIngest u = false) := by
  have hdata : ∀ u : String, u.data.length = u.length := fun u => rfl
  have hlong : ∀ u : String, 35 < u.length →
      validateBitcoinAddressIngest u = false := by
    intro u hu
    have hc : (decide (u.data.length < 26) || decide (35 < u.data.length)) = true := by
      rw [hdata u]
      simp
      omega
    simp only [validateBitcoinAddressIngest]
    rw [if_pos hc]
  have hshort : ∀ u : String, u.length < 26 →
      validateBitcoinAddressIngest u = false := by
    intro u hu
    have hc : (decide (u.data.length < 26) || decide (35 < u.data.length)) = true := by
      rw [hdata u]
      simp
      omega
    simp only [validateBitcoinAddressIngest]
    rw [if_pos hc]
  have hlen : 42 ≤ s.length ∧ s.length ≤ 62 := by
    simp only [matchBech32Arm, Bool.and_eq_true, beq_iff_eq,
      decide_eq_true_eq] at hbech
    obtain ⟨⟨⟨htake, _⟩, h39⟩, h59⟩ := hbech
    have ht : (s.data.take 3).length = 3 := by rw [htake]; rfl
    have hdlen : (s.data.drop 3).length = s.data.length - 3 := by
      simp [List.length_drop]
    rw [List.length_take] at ht
    rw [hdata s] at ht hdlen
    omega
  refine ⟨?_, hlen.1, hlen.2, hlong s (by omega), hlong, hshort⟩
  simp [validateBitcoinAddressPayout, hbech]

theorem address_validator_mismatch_witness :
    matchBech32Arm ("bc1qqqqqqqqqqqqqqqqqqqqqqqqqqqqqqqqqqqqqqq" : String).data = true ∧
    (validateBitcoinAddressPayout "bc1qqqqqqqqqqqqqqqqqqqqqqqqqqqqqqqqqqqqqqq" = true ∧
      42 ≤ ("bc1qqqqqqqqqqqqqqqqqqqqqqqqqqqqqqqqqqqqqqq" : String).length ∧
      ("bc1qqqqqqqqqqqqqqqqqqqqqqqqqqqqqqqqqqqqqqq" : String).length ≤ 62 ∧
      validateBitcoinAddressIngest "bc1qqqqqqqqqqqqqqqqqqqqqqqqqqqqqqqqqqqqqqq" = false ∧
      (∀ u : String, 35 < u.length → validateBitcoinAddressIngest u = false) ∧
      (∀ u : String, u.length < 26 → validateBitcoinAddressIngest u = false)) :=
  ⟨by decide, address_validator_mismatch "bc1qqqqqqqqqqqqqqqqqqqqqqqqqqqqqqqqqqqqqqq" (by decide)⟩

end Mobility

